import Mathlib

/-!
Formal model of the toy payments engine.

The Rust sources are embedded shallowly:

* `src/transaction.rs` — `TransactionDataAmount`, `TransactionData`,
  `Transaction`, the `Record`/`InputRecord` row type and the
  `TryFrom<&Record> for Transaction` decoder (`Transaction.tryFrom`).
* `src/errors.rs` — `DeserializationError`, `RepositoryError`.
* `src/repo.rs` — `Client`, `Client::register_transaction`,
  `Repository`, `Repository::register_transaction`, `iter_clients`.
* `src/dto.rs` — `OutputRecord` and its `From<&Client>` conversion.
* `src/main.rs` — the record-processing loop of `main` (`processRecords`,
  `runMain`).

Modelling conventions: client ids (`u16`) and transaction ids (`u32`) are
natural numbers (the code never does arithmetic on them); `f64` amounts
are rationals, so the arithmetic facts below are about exact arithmetic;
`HashMap` is an association list with `alLookup`/`alInsert`; `HashSet` is
a `Finset`.  Rust methods that mutate `&mut self` and return
`Result<(), E>` are functions returning the final state of `self` paired
with `Option E` (`none` for `Ok(())`, `some e` for `Err(e)`), so that
what happens to the state on the error paths stays observable.
-/

structure TransactionDataAmount where
  client : ℕ
  tx : ℕ
  amount : ℚ
  deriving DecidableEq, Repr

structure TransactionData where
  client : ℕ
  tx : ℕ
  deriving DecidableEq, Repr

/-- The five transaction kinds of `src/transaction.rs`. -/
inductive Transaction where
  | Deposit : TransactionDataAmount → Transaction
  | Withdrawal : TransactionDataAmount → Transaction
  | Dispute : TransactionData → Transaction
  | Resolve : TransactionData → Transaction
  | Chargeback : TransactionData → Transaction
  deriving DecidableEq, Repr

/-- Decoding errors of `src/errors.rs` (`InvalidAmount` is declared there
but never constructed anywhere in the sources). -/
inductive DeserializationError where
  | UnknownTransactionType : String → DeserializationError
  | AmountMissing : String → DeserializationError
  | InvalidAmount : ℚ → DeserializationError
  deriving DecidableEq, Repr

/-- Ledger errors of `src/errors.rs`. -/
inductive RepositoryError where
  | InsufficientFunds : ℕ → RepositoryError
  | DuplicateTransactionId : ℕ → RepositoryError
  | TransactionDoesNotExist : ℕ → ℕ → RepositoryError
  | WrongReferenceTransactionType : RepositoryError
  | TransactionAlreadyDisputed : ℕ → RepositoryError
  | TransactionNotDisputed : ℕ → RepositoryError
  | ClientLocked : ℕ → RepositoryError
  deriving DecidableEq, Repr

/-- `HashMap::get` on the association-list model. -/
def alLookup {α : Type} : List (ℕ × α) → ℕ → Option α
  | [], _ => none
  | (k, v) :: rest, key => if k = key then some v else alLookup rest key

/-- `HashMap::insert` on the association-list model: replaces the value
under an existing key, otherwise appends the binding. -/
def alInsert {α : Type} : List (ℕ × α) → ℕ → α → List (ℕ × α)
  | [], key, v => [(key, v)]
  | (k, v') :: rest, key, v =>
    if k = key then (key, v) :: rest else (k, v') :: alInsert rest key v

/-- `self.transactions.keys().any(|&k| k == tx)` from `src/repo.rs`. -/
def alContains {α : Type} (l : List (ℕ × α)) (key : ℕ) : Bool :=
  (alLookup l key).isSome

/-- The per-client ledger state (`Client` in `src/repo.rs`). -/
structure Client where
  id : ℕ
  available : ℚ
  held : ℚ
  locked : Bool
  transactions : List (ℕ × Transaction)
  disputed : Finset ℕ
  deriving DecidableEq

/-- `Client::new` from `src/repo.rs`. -/
def Client.new (id : ℕ) : Client :=
  { id := id
    available := 0
    held := 0
    locked := false
    transactions := []
    disputed := ∅ }

/-- `Client::register_transaction` from `src/repo.rs`.  Each early
`return Err(e)` becomes `(state so far, some e)`; the fall-through
`Ok(())` becomes `(mutated state, none)`. -/
def Client.register_transaction (c : Client) (t : Transaction) :
    Client × Option RepositoryError :=
  match t with
  | Transaction.Deposit data =>
    if c.locked then (c, some (RepositoryError.ClientLocked c.id))
    else if alContains c.transactions data.tx then
      (c, some (RepositoryError.DuplicateTransactionId data.tx))
    else
      ({ c with
          available := c.available + data.amount
          transactions := alInsert c.transactions data.tx t }, none)
  | Transaction.Withdrawal data =>
    if c.locked then (c, some (RepositoryError.ClientLocked c.id))
    else if alContains c.transactions data.tx then
      (c, some (RepositoryError.DuplicateTransactionId data.tx))
    else if c.available < data.amount then
      (c, some (RepositoryError.InsufficientFunds data.client))
    else
      ({ c with
          available := c.available - data.amount
          transactions := alInsert c.transactions data.tx t }, none)
  | Transaction.Dispute data =>
    match alLookup c.transactions data.tx with
    | none => (c, some (RepositoryError.TransactionDoesNotExist data.tx c.id))
    | some orgTx =>
      if data.tx ∈ c.disputed then
        (c, some (RepositoryError.TransactionAlreadyDisputed data.tx))
      else
        match orgTx with
        | Transaction.Deposit dep =>
          ({ c with
              available := c.available - dep.amount
              held := c.held + dep.amount
              disputed := insert data.tx c.disputed }, none)
        | _ => (c, some RepositoryError.WrongReferenceTransactionType)
  | Transaction.Resolve data =>
    match alLookup c.transactions data.tx with
    | none => (c, some (RepositoryError.TransactionDoesNotExist data.tx c.id))
    | some orgTx =>
      if data.tx ∉ c.disputed then
        (c, some (RepositoryError.TransactionNotDisputed data.tx))
      else
        match orgTx with
        | Transaction.Deposit dep =>
          ({ c with
              available := c.available + dep.amount
              held := c.held - dep.amount
              disputed := c.disputed.erase data.tx }, none)
        | _ => (c, some RepositoryError.WrongReferenceTransactionType)
  | Transaction.Chargeback data =>
    match alLookup c.transactions data.tx with
    | none => (c, some (RepositoryError.TransactionDoesNotExist data.tx c.id))
    | some orgTx =>
      if data.tx ∉ c.disputed then
        (c, some (RepositoryError.TransactionNotDisputed data.tx))
      else
        match orgTx with
        | Transaction.Deposit dep =>
          ({ c with
              held := c.held - dep.amount
              locked := true
              disputed := c.disputed.erase data.tx }, none)
        | _ => (c, some RepositoryError.WrongReferenceTransactionType)

/-- Sequential application of a stream of transactions to one ledger
(the driver loop restricted to a single client; failed transactions
leave the state as `register_transaction` left it). -/
def Client.applyAll (c : Client) : List Transaction → Client
  | [] => c
  | t :: ts => Client.applyAll (c.register_transaction t).1 ts

/-- The fleet of ledgers (`Repository` in `src/repo.rs`). -/
structure Repository where
  clients : List (ℕ × Client)
  deriving DecidableEq

/-- `Repository::new`. -/
def Repository.new : Repository := ⟨[]⟩

/-- The client-id extraction match at the top of
`Repository::register_transaction`. -/
def Transaction.clientOf : Transaction → ℕ
  | Transaction.Deposit data => data.client
  | Transaction.Withdrawal data => data.client
  | Transaction.Dispute data => data.client
  | Transaction.Resolve data => data.client
  | Transaction.Chargeback data => data.client

/-- `Repository::register_transaction` from `src/repo.rs`:
`entry(client_id).or_insert_with(Client::new)` creates the ledger before
delegating, and the (possibly unchanged) ledger stays in the map even
when the delegate returns an error. -/
def Repository.register_transaction (r : Repository) (t : Transaction) :
    Repository × Option RepositoryError :=
  let clientId := Transaction.clientOf t
  let client := (alLookup r.clients clientId).getD (Client.new clientId)
  let p := client.register_transaction t
  (⟨alInsert r.clients clientId p.1⟩, p.2)

/-- `Repository::iter_clients`. -/
def Repository.iter_clients (r : Repository) : List Client :=
  r.clients.map Prod.snd

/-- One raw input row (`Record` in `src/transaction.rs`, `InputRecord`
in `src/dto.rs`): the `type` field as read, and an optional amount. -/
structure InputRecord where
  type : String
  client : ℕ
  tx : ℕ
  amount : Option ℚ
  deriving DecidableEq, Repr

/-- `impl TryFrom<&Record> for Transaction` from `src/transaction.rs`:
the `match value.r#type.as_str()` over the five literals. -/
def Transaction.tryFrom (r : InputRecord) :
    Except DeserializationError Transaction :=
  if r.type = "deposit" then
    match r.amount with
    | none => Except.error (DeserializationError.AmountMissing r.type)
    | some a => Except.ok (Transaction.Deposit ⟨r.client, r.tx, a⟩)
  else if r.type = "withdrawal" then
    match r.amount with
    | none => Except.error (DeserializationError.AmountMissing r.type)
    | some a => Except.ok (Transaction.Withdrawal ⟨r.client, r.tx, a⟩)
  else if r.type = "dispute" then
    Except.ok (Transaction.Dispute ⟨r.client, r.tx⟩)
  else if r.type = "resolve" then
    Except.ok (Transaction.Resolve ⟨r.client, r.tx⟩)
  else if r.type = "chargeback" then
    Except.ok (Transaction.Chargeback ⟨r.client, r.tx⟩)
  else
    Except.error (DeserializationError.UnknownTransactionType r.type)

/-- The output row of `src/dto.rs`: balances already rendered to text. -/
structure OutputRecord where
  client : ℕ
  available : String
  held : String
  total : String
  locked : Bool
  deriving DecidableEq, Repr

/-- `format!("{:.4}", x)` from `OutputRecord::new`: fixed-point rendering
with exactly four fractional digits.  (The claims checked below never
evaluate it at a rounding tie, so the tie-breaking rule of the binary
formatter is immaterial.) -/
def formatFixed4 (q : ℚ) : String :=
  let n : ℤ := round (q * 10000)
  let sign := if n < 0 then "-" else ""
  let m : ℕ := n.natAbs
  let frac := Nat.repr (m % 10000)
  sign ++ Nat.repr (m / 10000) ++ "." ++
    String.mk (List.replicate (4 - frac.length) '0') ++ frac

/-- `impl From<&Client> for OutputRecord` (`src/dto.rs`): the total is
computed as `available + held` at snapshot time. -/
def OutputRecord.fromClient (c : Client) : OutputRecord :=
  { client := c.id
    available := formatFixed4 c.available
    held := formatFixed4 c.held
    total := formatFixed4 (c.available + c.held)
    locked := c.locked }

/-- The record loop of `main` (`src/main.rs`): a decoding failure is hit
by the `?` operator and aborts the whole run; a ledger failure is
printed to the error stream (modelled as the accumulated list) and the
loop continues with the next record. -/
def processRecords : Repository → List RepositoryError → List InputRecord →
    Except DeserializationError (Repository × List RepositoryError)
  | repo, errlog, [] => Except.ok (repo, errlog)
  | repo, errlog, r :: rest =>
    match Transaction.tryFrom r with
    | Except.error e => Except.error e
    | Except.ok t =>
      match repo.register_transaction t with
      | (repo', none) => processRecords repo' errlog rest
      | (repo', some e) => processRecords repo' (errlog ++ [e]) rest

/-- `main` after argument/file handling: `Except.ok` is exit code zero
(the snapshot rows and the error lines), `Except.error` is the non-zero
exit taken on a decoding error. -/
def runMain (records : List InputRecord) :
    Except DeserializationError (List OutputRecord × List RepositoryError) :=
  match processRecords Repository.new [] records with
  | Except.error e => Except.error e
  | Except.ok (repo, errlog) =>
    Except.ok (repo.iter_clients.map OutputRecord.fromClient, errlog)

/-! ### Helper lemmas -/

lemma alLookup_alInsert {α : Type} (l : List (ℕ × α)) (k : ℕ) (v : α)
    (k' : ℕ) :
    alLookup (alInsert l k v) k' = if k = k' then some v else alLookup l k' := by
  induction l with
  | nil => simp [alInsert, alLookup]
  | cons p rest ih =>
    obtain ⟨k₀, v₀⟩ := p
    by_cases h : k₀ = k
    · subst h
      simp only [alInsert, if_pos rfl, alLookup]
      split_ifs <;> simp_all [alLookup]
    · simp only [alInsert, if_neg h, alLookup, ih]
      split_ifs <;> simp_all

lemma register_error_unchanged (c : Client) (t : Transaction) :
    (c.register_transaction t).2 = none ∨ (c.register_transaction t).1 = c := by
  cases t <;> simp only [Client.register_transaction] <;>
    (repeat' split) <;> simp

lemma locked_step (c : Client) (t : Transaction) (h : c.locked = true) :
    ((c.register_transaction t).1).locked = true := by
  cases t <;> simp only [Client.register_transaction] <;>
    (repeat' split) <;> simp_all

lemma locked_applyAll (c : Client) (ts : List Transaction)
    (h : c.locked = true) :
    (Client.applyAll c ts).locked = true := by
  induction ts generalizing c with
  | nil => simpa [Client.applyAll] using h
  | cons t ts ih => simpa [Client.applyAll] using ih _ (locked_step c t h)

/-! ### Claim theorems -/

/-- C3: whenever `Client::register_transaction` returns an error, the
ledger is unchanged — `available`, `held`, `locked`, the transaction
history and the disputed set all keep their prior values. -/
theorem c3_errors_leave_ledger_unchanged (c : Client) (t : Transaction)
    (e : RepositoryError) (h : (c.register_transaction t).2 = some e) :
    (c.register_transaction t).1 = c := by
  rcases register_error_unchanged c t with h' | h'
  · exact absurd (h'.symm.trans h) (by simp)
  · exact h'

/-- Witness for C3: a withdrawal from a fresh client fails with
`InsufficientFunds` and leaves the ledger exactly as created. -/
theorem c3_witness :
    ((Client.new 1).register_transaction
        (Transaction.Withdrawal ⟨1, 1, 1⟩)).2 =
      some (RepositoryError.InsufficientFunds 1) ∧
    ((Client.new 1).register_transaction
        (Transaction.Withdrawal ⟨1, 1, 1⟩)).1 = Client.new 1 := by
  have hs : ((Client.new 1).register_transaction
      (Transaction.Withdrawal ⟨1, 1, 1⟩)).2 =
      some (RepositoryError.InsufficientFunds 1) := by
    norm_num [Client.register_transaction, Client.new, alContains, alLookup]
  exact ⟨hs, c3_errors_leave_ledger_unchanged (Client.new 1)
    (Transaction.Withdrawal ⟨1, 1, 1⟩)
    (RepositoryError.InsufficientFunds 1) hs⟩

/-- C7: the lock is monotone — one application of
`Client::register_transaction` (whether it succeeds or fails) never
clears `locked`, and neither does any sequence of applications. -/
theorem c7_lock_monotonic :
    (∀ (c : Client) (t : Transaction), c.locked = true →
      ((c.register_transaction t).1).locked = true) ∧
    (∀ (c : Client) (ts : List Transaction), c.locked = true →
      (Client.applyAll c ts).locked = true) :=
  ⟨locked_step, locked_applyAll⟩

/-- Witness for C7: a locked client stays locked through a deposit
attempt and through a deposit-then-dispute stream. -/
theorem c7_witness :
    ((({ Client.new 1 with locked := true }).register_transaction
        (Transaction.Deposit ⟨1, 1, 1⟩)).1).locked = true ∧
    (Client.applyAll { Client.new 1 with locked := true }
        [Transaction.Deposit ⟨1, 1, 1⟩,
         Transaction.Dispute ⟨1, 1⟩]).locked = true :=
  ⟨c7_lock_monotonic.1 _ _ rfl, c7_lock_monotonic.2 _ _ rfl⟩

/-- C6: the Decoder matches `type` case-sensitively against the five
literals and fails with `UnknownTransactionType` on anything else; a
missing amount on `deposit`/`withdrawal` fails with `AmountMissing`; an
amount present on the three referential types is tolerated and ignored;
and a present amount — zero or negative included — is never rejected. -/
theorem c6_decoder (cl tx : ℕ) :
    (∀ r : InputRecord,
      r.type ∉ (["deposit", "withdrawal", "dispute", "resolve",
          "chargeback"] : List String) →
      Transaction.tryFrom r =
        Except.error (DeserializationError.UnknownTransactionType r.type)) ∧
    (Transaction.tryFrom ⟨"deposit", cl, tx, none⟩ =
      Except.error (DeserializationError.AmountMissing "deposit")) ∧
    (Transaction.tryFrom ⟨"withdrawal", cl, tx, none⟩ =
      Except.error (DeserializationError.AmountMissing "withdrawal")) ∧
    (∀ a : ℚ, Transaction.tryFrom ⟨"deposit", cl, tx, some a⟩ =
      Except.ok (Transaction.Deposit ⟨cl, tx, a⟩)) ∧
    (∀ a : ℚ, Transaction.tryFrom ⟨"withdrawal", cl, tx, some a⟩ =
      Except.ok (Transaction.Withdrawal ⟨cl, tx, a⟩)) ∧
    (∀ oa : Option ℚ, Transaction.tryFrom ⟨"dispute", cl, tx, oa⟩ =
      Except.ok (Transaction.Dispute ⟨cl, tx⟩)) ∧
    (∀ oa : Option ℚ, Transaction.tryFrom ⟨"resolve", cl, tx, oa⟩ =
      Except.ok (Transaction.Resolve ⟨cl, tx⟩)) ∧
    (∀ oa : Option ℚ, Transaction.tryFrom ⟨"chargeback", cl, tx, oa⟩ =
      Except.ok (Transaction.Chargeback ⟨cl, tx⟩)) := by
  refine ⟨?_, by simp [Transaction.tryFrom], by simp [Transaction.tryFrom],
    fun a => by simp [Transaction.tryFrom],
    fun a => by simp [Transaction.tryFrom],
    fun oa => by simp [Transaction.tryFrom],
    fun oa => by simp [Transaction.tryFrom],
    fun oa => by simp [Transaction.tryFrom]⟩
  intro r hr
  simp only [List.mem_cons, List.mem_singleton, not_or] at hr
  obtain ⟨h1, h2, h3, h4, h5, -⟩ := hr
  simp [Transaction.tryFrom, h1, h2, h3, h4, h5]

/-- Witness for C6: the case-sensitive miss `"Deposit"` is rejected as
unknown, and a negative deposit amount is accepted at decode time. -/
theorem c6_witness :
    Transaction.tryFrom ⟨"Deposit", 1, 2, some 1⟩ =
      Except.error (DeserializationError.UnknownTransactionType "Deposit") ∧
    Transaction.tryFrom ⟨"deposit", 1, 2, some (-1)⟩ =
      Except.ok (Transaction.Deposit ⟨1, 2, -1⟩) ∧
    Transaction.tryFrom ⟨"dispute", 1, 2, some 3⟩ =
      Except.ok (Transaction.Dispute ⟨1, 2⟩) :=
  ⟨(c6_decoder 1 2).1 ⟨"Deposit", 1, 2, some 1⟩ (by decide),
   (c6_decoder 1 2).2.2.2.1 (-1),
   (c6_decoder 1 2).2.2.2.2.2.1 (some 3)⟩

/-- C9: duplicate transaction-id detection is per client — the same tx
id is accepted as a fresh deposit on two different clients, both
succeed, and the `DuplicateTransactionId` outcome for a deposit routed
through the Repository depends only on the receiving client's own
ledger. -/
theorem c9_duplicate_scoped_per_client :
    ((Repository.new.register_transaction
        (Transaction.Deposit ⟨1, 5, 1⟩)).2 = none) ∧
    (((Repository.new.register_transaction
          (Transaction.Deposit ⟨1, 5, 1⟩)).1.register_transaction
        (Transaction.Deposit ⟨2, 5, 2⟩)).2 = none) ∧
    (∃ c1, alLookup ((Repository.new.register_transaction
          (Transaction.Deposit ⟨1, 5, 1⟩)).1.register_transaction
            (Transaction.Deposit ⟨2, 5, 2⟩)).1.clients 1 = some c1 ∧
      alContains c1.transactions 5 = true) ∧
    (∃ c2, alLookup ((Repository.new.register_transaction
          (Transaction.Deposit ⟨1, 5, 1⟩)).1.register_transaction
            (Transaction.Deposit ⟨2, 5, 2⟩)).1.clients 2 = some c2 ∧
      alContains c2.transactions 5 = true) ∧
    (∀ (r : Repository) (d : TransactionDataAmount),
      (r.register_transaction (Transaction.Deposit d)).2 =
          some (RepositoryError.DuplicateTransactionId d.tx) ↔
        (((alLookup r.clients d.client).getD
            (Client.new d.client)).locked = false ∧
          alContains ((alLookup r.clients d.client).getD
            (Client.new d.client)).transactions d.tx = true)) := by
  refine ⟨rfl, rfl, ⟨_, rfl, rfl⟩, ⟨_, rfl, rfl⟩, ?_⟩
  intro r d
  simp only [Repository.register_transaction, Client.register_transaction,
    Transaction.clientOf]
  split_ifs with hl hc <;> simp_all

/-- Counterexample for C2: on a ledger whose disputed set holds a tx
whose history entry is a Withdrawal, `Dispute` fails with
`TransactionAlreadyDisputed`, not with `WrongReferenceTransactionType`
as the claimed checking order (existence, then reference type, then
already-disputed) would demand. -/
theorem c2_counterexample :
    alLookup (Client.mk 1 0 0 false
        [(1, Transaction.Withdrawal ⟨1, 1, 5⟩)] {1}).transactions 1 =
      some (Transaction.Withdrawal ⟨1, 1, 5⟩) ∧
    ((Client.mk 1 0 0 false
        [(1, Transaction.Withdrawal ⟨1, 1, 5⟩)] {1}).register_transaction
          (Transaction.Dispute ⟨1, 1⟩)).2 =
      some (RepositoryError.TransactionAlreadyDisputed 1) ∧
    ((Client.mk 1 0 0 false
        [(1, Transaction.Withdrawal ⟨1, 1, 5⟩)] {1}).register_transaction
          (Transaction.Dispute ⟨1, 1⟩)).2 ≠
      some RepositoryError.WrongReferenceTransactionType := by
  refine ⟨rfl, rfl, ?_⟩
  intro h
  simp [Client.register_transaction, alLookup] at h

/-- C2 (amended): `Dispute` checks existence first, then the
already-disputed set, then the reference type; a locked client is never
a failure cause; on success the referenced deposit's amount `a` moves
from `available` to `held` and the tx joins `disputed`. -/
theorem c2_amended_dispute (c : Client) (d : TransactionData) :
    (alLookup c.transactions d.tx = none →
      c.register_transaction (Transaction.Dispute d) =
        (c, some (RepositoryError.TransactionDoesNotExist d.tx c.id))) ∧
    (∀ orgTx, alLookup c.transactions d.tx = some orgTx →
      d.tx ∈ c.disputed →
      c.register_transaction (Transaction.Dispute d) =
        (c, some (RepositoryError.TransactionAlreadyDisputed d.tx))) ∧
    (∀ dep, alLookup c.transactions d.tx = some (Transaction.Deposit dep) →
      d.tx ∉ c.disputed →
      c.register_transaction (Transaction.Dispute d) =
        ({ c with
            available := c.available - dep.amount
            held := c.held + dep.amount
            disputed := insert d.tx c.disputed }, none)) ∧
    (∀ orgTx, alLookup c.transactions d.tx = some orgTx →
      d.tx ∉ c.disputed →
      (∀ dep, orgTx ≠ Transaction.Deposit dep) →
      c.register_transaction (Transaction.Dispute d) =
        (c, some RepositoryError.WrongReferenceTransactionType)) := by
  refine ⟨?_, ?_, ?_, ?_⟩
  · intro h
    simp [Client.register_transaction, h]
  · intro orgTx h hmem
    simp [Client.register_transaction, h, hmem]
  · intro dep h hmem
    simp [Client.register_transaction, h, hmem]
  · intro orgTx h hmem hnotdep
    cases orgTx with
    | Deposit dep => exact absurd rfl (hnotdep dep)
    | Withdrawal dep => simp [Client.register_transaction, h, hmem]
    | Dispute dd => simp [Client.register_transaction, h, hmem]
    | Resolve dd => simp [Client.register_transaction, h, hmem]
    | Chargeback dd => simp [Client.register_transaction, h, hmem]

/-- Witness for C2 (amended): the four branches at concrete ledgers —
missing tx, already-disputed tx, a successful dispute on a locked
client, and a dispute referencing a withdrawal. -/
theorem c2_amended_witness :
    ((Client.new 1).register_transaction (Transaction.Dispute ⟨1, 9⟩) =
      (Client.new 1,
        some (RepositoryError.TransactionDoesNotExist 9 1))) ∧
    ({ Client.new 1 with
        transactions := [(1, Transaction.Withdrawal ⟨1, 1, 5⟩)]
        disputed := {1} }.register_transaction
          (Transaction.Dispute ⟨1, 1⟩) =
      ({ Client.new 1 with
          transactions := [(1, Transaction.Withdrawal ⟨1, 1, 5⟩)]
          disputed := {1} },
        some (RepositoryError.TransactionAlreadyDisputed 1))) ∧
    ({ Client.new 1 with
        locked := true
        transactions := [(2, Transaction.Deposit ⟨1, 2, 3⟩)]
      }.register_transaction (Transaction.Dispute ⟨1, 2⟩) =
      ({ Client.new 1 with
          locked := true
          transactions := [(2, Transaction.Deposit ⟨1, 2, 3⟩)]
          available := 0 - 3
          held := 0 + 3
          disputed := insert 2 ∅ }, none)) ∧
    ({ Client.new 1 with
        transactions := [(1, Transaction.Withdrawal ⟨1, 1, 5⟩)]
      }.register_transaction (Transaction.Dispute ⟨1, 1⟩) =
      ({ Client.new 1 with
          transactions := [(1, Transaction.Withdrawal ⟨1, 1, 5⟩)] },
        some RepositoryError.WrongReferenceTransactionType)) := by
  refine ⟨(c2_amended_dispute (Client.new 1) ⟨1, 9⟩).1 rfl,
    (c2_amended_dispute _ ⟨1, 1⟩).2.1 (Transaction.Withdrawal ⟨1, 1, 5⟩)
      rfl (by decide),
    (c2_amended_dispute _ ⟨1, 2⟩).2.2.1 ⟨1, 2, 3⟩ rfl (by decide),
    (c2_amended_dispute _ ⟨1, 1⟩).2.2.2 (Transaction.Withdrawal ⟨1, 1, 5⟩)
      rfl (by decide) ?_⟩
  intro dep
  simp

/-- C4: `Chargeback` has the same preconditions, in the same order, as
`Resolve` — existence (`TransactionDoesNotExist`), membership in the
disputed set (`TransactionNotDisputed`), reference type
(`WrongReferenceTransactionType`) — and on success `held` decreases by
the referenced deposit's amount, the tx leaves `disputed`, `locked` is
set, and `available` is not credited. -/
theorem c4_chargeback (c : Client) (d : TransactionData) :
    (alLookup c.transactions d.tx = none →
      c.register_transaction (Transaction.Chargeback d) =
        (c, some (RepositoryError.TransactionDoesNotExist d.tx c.id))) ∧
    (∀ orgTx, alLookup c.transactions d.tx = some orgTx →
      d.tx ∉ c.disputed →
      c.register_transaction (Transaction.Chargeback d) =
        (c, some (RepositoryError.TransactionNotDisputed d.tx))) ∧
    (∀ dep, alLookup c.transactions d.tx = some (Transaction.Deposit dep) →
      d.tx ∈ c.disputed →
      c.register_transaction (Transaction.Chargeback d) =
        ({ c with
            held := c.held - dep.amount
            locked := true
            disputed := c.disputed.erase d.tx }, none)) ∧
    (∀ orgTx, alLookup c.transactions d.tx = some orgTx →
      d.tx ∈ c.disputed →
      (∀ dep, orgTx ≠ Transaction.Deposit dep) →
      c.register_transaction (Transaction.Chargeback d) =
        (c, some RepositoryError.WrongReferenceTransactionType)) := by
  refine ⟨?_, ?_, ?_, ?_⟩
  · intro h
    simp [Client.register_transaction, h]
  · intro orgTx h hmem
    simp [Client.register_transaction, h, hmem]
  · intro dep h hmem
    simp [Client.register_transaction, h, hmem]
  · intro orgTx h hmem hnotdep
    cases orgTx with
    | Deposit dep => exact absurd rfl (hnotdep dep)
    | Withdrawal dep => simp [Client.register_transaction, h, hmem]
    | Dispute dd => simp [Client.register_transaction, h, hmem]
    | Resolve dd => simp [Client.register_transaction, h, hmem]
    | Chargeback dd => simp [Client.register_transaction, h, hmem]

/-- Witness for C4: a successful chargeback on a disputed deposit zeroes
`held`, locks the client and does not credit `available`. -/
theorem c4_witness :
    ({ Client.new 1 with
        held := 3
        transactions := [(2, Transaction.Deposit ⟨1, 2, 3⟩)]
        disputed := {2} }.register_transaction
          (Transaction.Chargeback ⟨1, 2⟩) =
      ({ Client.new 1 with
          held := (3 : ℚ) - 3
          locked := true
          transactions := [(2, Transaction.Deposit ⟨1, 2, 3⟩)]
          disputed := Finset.erase {2} 2 }, none)) ∧
    ({ Client.new 1 with
        transactions := [(2, Transaction.Deposit ⟨1, 2, 3⟩)]
      }.register_transaction (Transaction.Chargeback ⟨1, 2⟩) =
      ({ Client.new 1 with
          transactions := [(2, Transaction.Deposit ⟨1, 2, 3⟩)] },
        some (RepositoryError.TransactionNotDisputed 2))) :=
  ⟨(c4_chargeback _ ⟨1, 2⟩).2.2.1 ⟨1, 2, 3⟩ rfl (by decide),
   (c4_chargeback _ ⟨1, 2⟩).2.1 (Transaction.Deposit ⟨1, 2, 3⟩) rfl
     (by decide)⟩

/-! ### Reachable-state invariants -/

/-- The amount a tx id contributes to `held` while disputed: the amount
of the deposit recorded under it in a history list, `0` when the entry
is absent or not a deposit. -/
def depositAmountIn (l : List (ℕ × Transaction)) (tx : ℕ) : ℚ :=
  match alLookup l tx with
  | some (Transaction.Deposit dep) => dep.amount
  | _ => 0

/-- Every disputed tx id is a history key whose entry is a Deposit. -/
def DisputedDepositInv (c : Client) : Prop :=
  ∀ tx ∈ c.disputed, ∃ dep,
    alLookup c.transactions tx = some (Transaction.Deposit dep)

/-- `held` equals the sum of the amounts of the disputed deposits. -/
def HeldSumInv (c : Client) : Prop :=
  c.held = ∑ tx in c.disputed, depositAmountIn c.transactions tx

/-- Every deposit recorded in the history has a nonnegative amount. -/
def DepositNonnegInv (c : Client) : Prop :=
  ∀ tx dep, alLookup c.transactions tx = some (Transaction.Deposit dep) →
    0 ≤ dep.amount

lemma heldSumInv_new (id : ℕ) : HeldSumInv (Client.new id) := by
  simp [HeldSumInv, Client.new]

lemma disputedDepositInv_new (id : ℕ) :
    DisputedDepositInv (Client.new id) := by
  simp [DisputedDepositInv, Client.new]

lemma depositNonnegInv_new (id : ℕ) : DepositNonnegInv (Client.new id) := by
  intro tx dep h
  simp [Client.new, alLookup] at h

lemma alLookup_insert_of_lookup_fresh (l : List (ℕ × Transaction))
    (key : ℕ) (v : Transaction) (hfresh : alLookup l key = none)
    (tx : ℕ) (w : Transaction) (h : alLookup l tx = some w) :
    alLookup (alInsert l key v) tx = some w := by
  rw [alLookup_alInsert]
  rcases eq_or_ne key tx with rfl | hne
  · rw [h] at hfresh
    cases hfresh
  · simp [hne, h]

lemma sum_depositAmountIn_insert_fresh (l : List (ℕ × Transaction))
    (s : Finset ℕ) (key : ℕ) (v : Transaction)
    (hfresh : alLookup l key = none)
    (hs : ∀ tx ∈ s, ∃ dep, alLookup l tx = some (Transaction.Deposit dep)) :
    ∑ tx in s, depositAmountIn (alInsert l key v) tx =
      ∑ tx in s, depositAmountIn l tx := by
  refine Finset.sum_congr rfl fun tx htx => ?_
  obtain ⟨dep, hdep⟩ := hs tx htx
  unfold depositAmountIn
  rw [alLookup_insert_of_lookup_fresh l key v hfresh tx _ hdep, hdep]

lemma alContains_false_lookup (l : List (ℕ × Transaction)) (key : ℕ)
    (h : alContains l key = false) : alLookup l key = none := by
  rcases hx : alLookup l key with _ | w
  · rfl
  · rw [alContains, hx] at h
    cases h

lemma inv_step (c : Client) (t : Transaction)
    (h1 : HeldSumInv c) (h2 : DisputedDepositInv c) :
    HeldSumInv (c.register_transaction t).1 ∧
    DisputedDepositInv (c.register_transaction t).1 := by
  rcases t with data | data | data | data | data
  · -- Deposit
    cases hl : c.locked
    · cases hcon : alContains c.transactions data.tx
      · have hfresh := alContains_false_lookup _ _ hcon
        have hres : (c.register_transaction (Transaction.Deposit data)).1 =
            { c with
                available := c.available + data.amount
                transactions := alInsert c.transactions data.tx
                  (Transaction.Deposit data) } := by
          simp [Client.register_transaction, hl, hcon]
        rw [hres]
        constructor
        · show c.held = ∑ tx in c.disputed,
            depositAmountIn (alInsert c.transactions data.tx
              (Transaction.Deposit data)) tx
          rw [sum_depositAmountIn_insert_fresh _ _ _ _ hfresh h2]
          exact h1
        · intro tx htx
          obtain ⟨dep, hdep⟩ := h2 tx htx
          exact ⟨dep, alLookup_insert_of_lookup_fresh _ _ _ hfresh _ _ hdep⟩
      · have hres : (c.register_transaction (Transaction.Deposit data)) =
            (c, some (RepositoryError.DuplicateTransactionId data.tx)) := by
          simp [Client.register_transaction, hl, hcon]
        rw [hres]
        exact ⟨h1, h2⟩
    · have hres : (c.register_transaction (Transaction.Deposit data)) =
          (c, some (RepositoryError.ClientLocked c.id)) := by
        simp [Client.register_transaction, hl]
      rw [hres]
      exact ⟨h1, h2⟩
  · -- Withdrawal
    cases hl : c.locked
    · cases hcon : alContains c.transactions data.tx
      · by_cases hav : c.available < data.amount
        · have hres : (c.register_transaction (Transaction.Withdrawal data)) =
              (c, some (RepositoryError.InsufficientFunds data.client)) := by
            simp [Client.register_transaction, hl, hcon, hav]
          rw [hres]
          exact ⟨h1, h2⟩
        · have hfresh := alContains_false_lookup _ _ hcon
          have hres : (c.register_transaction (Transaction.Withdrawal data)).1 =
              { c with
                  available := c.available - data.amount
                  transactions := alInsert c.transactions data.tx
                    (Transaction.Withdrawal data) } := by
            simp [Client.register_transaction, hl, hcon, hav]
          rw [hres]
          constructor
          · show c.held = ∑ tx in c.disputed,
              depositAmountIn (alInsert c.transactions data.tx
                (Transaction.Withdrawal data)) tx
            rw [sum_depositAmountIn_insert_fresh _ _ _ _ hfresh h2]
            exact h1
          · intro tx htx
            obtain ⟨dep, hdep⟩ := h2 tx htx
            exact ⟨dep, alLookup_insert_of_lookup_fresh _ _ _ hfresh _ _ hdep⟩
      · have hres : (c.register_transaction (Transaction.Withdrawal data)) =
            (c, some (RepositoryError.DuplicateTransactionId data.tx)) := by
          simp [Client.register_transaction, hl, hcon]
        rw [hres]
        exact ⟨h1, h2⟩
    · have hres : (c.register_transaction (Transaction.Withdrawal data)) =
          (c, some (RepositoryError.ClientLocked c.id)) := by
        simp [Client.register_transaction, hl]
      rw [hres]
      exact ⟨h1, h2⟩
  · -- Dispute
    rcases hx : alLookup c.transactions data.tx with _ | orgTx
    · have hres : (c.register_transaction (Transaction.Dispute data)) =
          (c, some (RepositoryError.TransactionDoesNotExist data.tx c.id)) := by
        simp [Client.register_transaction, hx]
      rw [hres]
      exact ⟨h1, h2⟩
    · by_cases hd : data.tx ∈ c.disputed
      · have hres : (c.register_transaction (Transaction.Dispute data)) =
            (c, some (RepositoryError.TransactionAlreadyDisputed data.tx)) := by
          simp [Client.register_transaction, hx, hd]
        rw [hres]
        exact ⟨h1, h2⟩
      · rcases orgTx with dep | dd | dd | dd | dd
        · have hres : (c.register_transaction (Transaction.Dispute data)).1 =
              { c with
                  available := c.available - dep.amount
                  held := c.held + dep.amount
                  disputed := insert data.tx c.disputed } := by
            simp [Client.register_transaction, hx, hd]
          rw [hres]
          constructor
          · show c.held + dep.amount = ∑ tx in insert data.tx c.disputed,
              depositAmountIn c.transactions tx
            rw [Finset.sum_insert hd]
            have hda : depositAmountIn c.transactions data.tx = dep.amount := by
              unfold depositAmountIn
              rw [hx]
            rw [hda, h1, add_comm]
          · intro tx htx
            rcases Finset.mem_insert.mp htx with rfl | hold
            · exact ⟨dep, hx⟩
            · exact h2 tx hold
        all_goals
          (have hres : (c.register_transaction (Transaction.Dispute data)) =
              (c, some RepositoryError.WrongReferenceTransactionType) := by
            simp [Client.register_transaction, hx, hd]
           rw [hres]
           exact ⟨h1, h2⟩)
  · -- Resolve
    rcases hx : alLookup c.transactions data.tx with _ | orgTx
    · have hres : (c.register_transaction (Transaction.Resolve data)) =
          (c, some (RepositoryError.TransactionDoesNotExist data.tx c.id)) := by
        simp [Client.register_transaction, hx]
      rw [hres]
      exact ⟨h1, h2⟩
    · by_cases hd : data.tx ∈ c.disputed
      · rcases orgTx with dep | dd | dd | dd | dd
        · have hres : (c.register_transaction (Transaction.Resolve data)).1 =
              { c with
                  available := c.available + dep.amount
                  held := c.held - dep.amount
                  disputed := c.disputed.erase data.tx } := by
            simp [Client.register_transaction, hx, hd]
          rw [hres]
          constructor
          · show c.held - dep.amount = ∑ tx in c.disputed.erase data.tx,
              depositAmountIn c.transactions tx
            have hda : depositAmountIn c.transactions data.tx = dep.amount := by
              unfold depositAmountIn
              rw [hx]
            rw [Finset.sum_erase_eq_sub hd, hda, h1]
          · intro tx htx
            exact h2 tx (Finset.mem_of_mem_erase htx)
        all_goals
          (have hres : (c.register_transaction (Transaction.Resolve data)) =
              (c, some RepositoryError.WrongReferenceTransactionType) := by
            simp [Client.register_transaction, hx, hd]
           rw [hres]
           exact ⟨h1, h2⟩)
      · have hres : (c.register_transaction (Transaction.Resolve data)) =
            (c, some (RepositoryError.TransactionNotDisputed data.tx)) := by
          simp [Client.register_transaction, hx, hd]
        rw [hres]
        exact ⟨h1, h2⟩
  · -- Chargeback
    rcases hx : alLookup c.transactions data.tx with _ | orgTx
    · have hres : (c.register_transaction (Transaction.Chargeback data)) =
          (c, some (RepositoryError.TransactionDoesNotExist data.tx c.id)) := by
        simp [Client.register_transaction, hx]
      rw [hres]
      exact ⟨h1, h2⟩
    · by_cases hd : data.tx ∈ c.disputed
      · rcases orgTx with dep | dd | dd | dd | dd
        · have hres : (c.register_transaction (Transaction.Chargeback data)).1 =
              { c with
                  held := c.held - dep.amount
                  locked := true
                  disputed := c.disputed.erase data.tx } := by
            simp [Client.register_transaction, hx, hd]
          rw [hres]
          constructor
          · show c.held - dep.amount = ∑ tx in c.disputed.erase data.tx,
              depositAmountIn c.transactions tx
            have hda : depositAmountIn c.transactions data.tx = dep.amount := by
              unfold depositAmountIn
              rw [hx]
            rw [Finset.sum_erase_eq_sub hd, hda, h1]
          · intro tx htx
            exact h2 tx (Finset.mem_of_mem_erase htx)
        all_goals
          (have hres : (c.register_transaction (Transaction.Chargeback data)) =
              (c, some RepositoryError.WrongReferenceTransactionType) := by
            simp [Client.register_transaction, hx, hd]
           rw [hres]
           exact ⟨h1, h2⟩)
      · have hres : (c.register_transaction (Transaction.Chargeback data)) =
            (c, some (RepositoryError.TransactionNotDisputed data.tx)) := by
          simp [Client.register_transaction, hx, hd]
        rw [hres]
        exact ⟨h1, h2⟩

lemma nonneg_step (c : Client) (t : Transaction)
    (h : DepositNonnegInv c)
    (ht : ∀ data, t = Transaction.Deposit data → 0 ≤ data.amount) :
    DepositNonnegInv (c.register_transaction t).1 := by
  rcases t with data | data | data | data | data
  · -- Deposit
    cases hl : c.locked
    · cases hcon : alContains c.transactions data.tx
      · have hres : (c.register_transaction (Transaction.Deposit data)).1 =
            { c with
                available := c.available + data.amount
                transactions := alInsert c.transactions data.tx
                  (Transaction.Deposit data) } := by
          simp [Client.register_transaction, hl, hcon]
        rw [hres]
        intro tx dep hdep
        rw [show ({ c with
            available := c.available + data.amount
            transactions := alInsert c.transactions data.tx
              (Transaction.Deposit data) } : Client).transactions =
          alInsert c.transactions data.tx (Transaction.Deposit data) from rfl,
          alLookup_alInsert] at hdep
        rcases eq_or_ne data.tx tx with rfl | hne
        · rw [if_pos rfl] at hdep
          have hde : data = dep := by
            have h' : Transaction.Deposit data = Transaction.Deposit dep := by
              injection hdep
            injection h'
          exact hde ▸ ht data rfl
        · rw [if_neg hne] at hdep
          exact h tx dep hdep
      · have hres : (c.register_transaction (Transaction.Deposit data)).1 = c := by
          simp [Client.register_transaction, hl, hcon]
        rw [hres]
        exact h
    · have hres : (c.register_transaction (Transaction.Deposit data)).1 = c := by
        simp [Client.register_transaction, hl]
      rw [hres]
      exact h
  · -- Withdrawal
    cases hl : c.locked
    · cases hcon : alContains c.transactions data.tx
      · by_cases hav : c.available < data.amount
        · have hres : (c.register_transaction (Transaction.Withdrawal data)).1 = c := by
            simp [Client.register_transaction, hl, hcon, hav]
          rw [hres]
          exact h
        · have hres : (c.register_transaction (Transaction.Withdrawal data)).1 =
              { c with
                  available := c.available - data.amount
                  transactions := alInsert c.transactions data.tx
                    (Transaction.Withdrawal data) } := by
            simp [Client.register_transaction, hl, hcon, hav]
          rw [hres]
          intro tx dep hdep
          rw [show ({ c with
              available := c.available - data.amount
              transactions := alInsert c.transactions data.tx
                (Transaction.Withdrawal data) } : Client).transactions =
            alInsert c.transactions data.tx (Transaction.Withdrawal data) from rfl,
            alLookup_alInsert] at hdep
          rcases eq_or_ne data.tx tx with rfl | hne
          · rw [if_pos rfl] at hdep
            cases hdep
          · rw [if_neg hne] at hdep
            exact h tx dep hdep
      · have hres : (c.register_transaction (Transaction.Withdrawal data)).1 = c := by
          simp [Client.register_transaction, hl, hcon]
        rw [hres]
        exact h
    · have hres : (c.register_transaction (Transaction.Withdrawal data)).1 = c := by
        simp [Client.register_transaction, hl]
      rw [hres]
      exact h
  all_goals
    -- the three referential variants never touch `transactions`
    (intro tx dep hdep
     refine h tx dep ?_
     rw [← hdep]
     congr 1
     simp only [Client.register_transaction]
     (repeat' split) <;> rfl)

lemma inv_applyAll (c : Client) (ts : List Transaction)
    (h1 : HeldSumInv c) (h2 : DisputedDepositInv c) :
    HeldSumInv (Client.applyAll c ts) ∧
    DisputedDepositInv (Client.applyAll c ts) := by
  induction ts generalizing c with
  | nil => exact ⟨h1, h2⟩
  | cons t ts ih =>
    have hstep := inv_step c t h1 h2
    simpa [Client.applyAll] using ih _ hstep.1 hstep.2

lemma nonneg_applyAll (c : Client) (ts : List Transaction)
    (h : DepositNonnegInv c)
    (hts : ∀ data, Transaction.Deposit data ∈ ts → 0 ≤ data.amount) :
    DepositNonnegInv (Client.applyAll c ts) := by
  induction ts generalizing c with
  | nil => exact h
  | cons t ts ih =>
    have hhd : DepositNonnegInv (c.register_transaction t).1 :=
      nonneg_step c t h fun data hd => hts data (by
        subst hd
        exact List.mem_cons_self _ _)
    simpa [Client.applyAll] using
      ih _ hhd fun data hd => hts data (List.mem_cons_of_mem _ hd)

lemma held_nonneg_of_invs (c : Client) (h1 : HeldSumInv c)
    (h2 : DisputedDepositInv c) (h3 : DepositNonnegInv c) : 0 ≤ c.held := by
  rw [h1]
  refine Finset.sum_nonneg fun tx htx => ?_
  obtain ⟨dep, hdep⟩ := h2 tx htx
  have hnn := h3 tx dep hdep
  unfold depositAmountIn
  rw [hdep]
  exact hnn

/-- Counterexample for C5: the decoder-accepted deposit amount `-1`
reaches the ledger unchecked, and disputing it drives `held` to `-1`,
violating `held >= 0` in a state reachable from a fresh ledger. -/
theorem c5_counterexample :
    (Client.applyAll (Client.new 1)
      [Transaction.Deposit ⟨1, 1, -1⟩,
       Transaction.Dispute ⟨1, 1⟩]).held = -1 ∧
    ¬(0 ≤ (Client.applyAll (Client.new 1)
      [Transaction.Deposit ⟨1, 1, -1⟩,
       Transaction.Dispute ⟨1, 1⟩]).held) := by
  have h : (Client.applyAll (Client.new 1)
      [Transaction.Deposit ⟨1, 1, -1⟩,
       Transaction.Dispute ⟨1, 1⟩]).held = -1 := by
    simp [Client.applyAll, Client.register_transaction, Client.new,
      alContains, alLookup, alInsert]
  refine ⟨h, ?_⟩
  rw [h]
  norm_num

/-- C5 (amended): in every state reachable from a fresh ledger by a
stream whose deposits all carry nonnegative amounts, `held >= 0`; and —
unconditionally — every tx id in `disputed` is a history key whose
entry is a Deposit. -/
theorem c5_amended (id : ℕ) (ts : List Transaction)
    (hnn : ∀ data : TransactionDataAmount,
      Transaction.Deposit data ∈ ts → 0 ≤ data.amount) :
    0 ≤ (Client.applyAll (Client.new id) ts).held ∧
    ∀ tx ∈ (Client.applyAll (Client.new id) ts).disputed, ∃ dep,
      alLookup (Client.applyAll (Client.new id) ts).transactions tx =
        some (Transaction.Deposit dep) := by
  have h12 := inv_applyAll (Client.new id) ts (heldSumInv_new id)
    (disputedDepositInv_new id)
  have h3 := nonneg_applyAll (Client.new id) ts (depositNonnegInv_new id) hnn
  exact ⟨held_nonneg_of_invs _ h12.1 h12.2 h3, h12.2⟩

/-- Witness for C5 (amended): deposit 1.0 then dispute it. -/
theorem c5_witness :
    0 ≤ (Client.applyAll (Client.new 1)
      [Transaction.Deposit ⟨1, 1, 1⟩, Transaction.Dispute ⟨1, 1⟩]).held ∧
    ∀ tx ∈ (Client.applyAll (Client.new 1)
      [Transaction.Deposit ⟨1, 1, 1⟩,
       Transaction.Dispute ⟨1, 1⟩]).disputed, ∃ dep,
      alLookup (Client.applyAll (Client.new 1)
        [Transaction.Deposit ⟨1, 1, 1⟩,
         Transaction.Dispute ⟨1, 1⟩]).transactions tx =
        some (Transaction.Deposit dep) :=
  c5_amended 1 _ (by
    intro data hd
    simp only [List.mem_cons, List.not_mem_nil, or_false] at hd
    rcases hd with hd | hd
    · have : data = (⟨1, 1, 1⟩ : TransactionDataAmount) := by
        injection hd
      rw [this]
      norm_num
    · cases hd)

/-- C10: from any state reachable from a fresh ledger, `Resolve` and
`Chargeback` never return `WrongReferenceTransactionType` — every
disputed tx refers to a Deposit, so the outcome is success,
`TransactionDoesNotExist`, or `TransactionNotDisputed`. -/
theorem c10_wrong_reference_unreachable (id : ℕ) (ts : List Transaction)
    (d : TransactionData) :
    (((Client.applyAll (Client.new id) ts).register_transaction
        (Transaction.Resolve d)).2 = none ∨
      ((Client.applyAll (Client.new id) ts).register_transaction
        (Transaction.Resolve d)).2 =
        some (RepositoryError.TransactionDoesNotExist d.tx
          (Client.applyAll (Client.new id) ts).id) ∨
      ((Client.applyAll (Client.new id) ts).register_transaction
        (Transaction.Resolve d)).2 =
        some (RepositoryError.TransactionNotDisputed d.tx)) ∧
    (((Client.applyAll (Client.new id) ts).register_transaction
        (Transaction.Chargeback d)).2 = none ∨
      ((Client.applyAll (Client.new id) ts).register_transaction
        (Transaction.Chargeback d)).2 =
        some (RepositoryError.TransactionDoesNotExist d.tx
          (Client.applyAll (Client.new id) ts).id) ∨
      ((Client.applyAll (Client.new id) ts).register_transaction
        (Transaction.Chargeback d)).2 =
        some (RepositoryError.TransactionNotDisputed d.tx)) := by
  have hinv := (inv_applyAll (Client.new id) ts (heldSumInv_new id)
    (disputedDepositInv_new id)).2
  constructor
  · rcases hx : alLookup (Client.applyAll (Client.new id) ts).transactions
        d.tx with _ | orgTx
    · right
      left
      simp [Client.register_transaction, hx]
    · by_cases hd : d.tx ∈ (Client.applyAll (Client.new id) ts).disputed
      · left
        obtain ⟨dep, hdep⟩ := hinv d.tx hd
        have horg : orgTx = Transaction.Deposit dep := by
          rw [hx] at hdep
          injection hdep
        subst horg
        simp [Client.register_transaction, hx, hd]
      · right
        right
        simp [Client.register_transaction, hx, hd]
  · rcases hx : alLookup (Client.applyAll (Client.new id) ts).transactions
        d.tx with _ | orgTx
    · right
      left
      simp [Client.register_transaction, hx]
    · by_cases hd : d.tx ∈ (Client.applyAll (Client.new id) ts).disputed
      · left
        obtain ⟨dep, hdep⟩ := hinv d.tx hd
        have horg : orgTx = Transaction.Deposit dep := by
          rw [hx] at hdep
          injection hdep
        subst horg
        simp [Client.register_transaction, hx, hd]
      · right
        right
        simp [Client.register_transaction, hx, hd]

/-- Counterexample for C1: a record with the unknown type `"foo"`
aborts the whole run through the `?` operator on `record.try_into()` —
a non-zero exit — and the valid deposit after it is never processed,
although that record alone runs to a successful end of stream. -/
theorem c1_counterexample :
    runMain [⟨"foo", 1, 1, none⟩, ⟨"deposit", 1, 2, some 1⟩] =
      Except.error (DeserializationError.UnknownTransactionType "foo") ∧
    (runMain [⟨"foo", 1, 1, none⟩, ⟨"deposit", 1, 2, some 1⟩]).isOk =
      false ∧
    (runMain [⟨"deposit", 1, 2, some 1⟩]).isOk = true := by
  refine ⟨rfl, rfl, rfl⟩

/-- C1 (amended): ledger errors are non-fatal at the Driver — the
record is skipped, a descriptive entry goes to the error stream, and
processing continues — and a stream whose records all decode reaches a
successful end of stream (exit code zero) whatever the ledger errors;
decoding errors, by contrast, are hit by `?` and abort the run. -/
theorem c1_amended :
    (∀ (repo : Repository) (errlog : List RepositoryError)
        (rs : List InputRecord),
      (∀ r ∈ rs, (Transaction.tryFrom r).isOk = true) →
      (processRecords repo errlog rs).isOk = true) ∧
    (∀ (repo : Repository) (errlog : List RepositoryError)
        (r : InputRecord) (rest : List InputRecord) (t : Transaction)
        (repo2 : Repository) (e : RepositoryError),
      Transaction.tryFrom r = Except.ok t →
      repo.register_transaction t = (repo2, some e) →
      processRecords repo errlog (r :: rest) =
        processRecords repo2 (errlog ++ [e]) rest) ∧
    (∀ rs : List InputRecord,
      (∀ r ∈ rs, (Transaction.tryFrom r).isOk = true) →
      (runMain rs).isOk = true) := by
  have hmain : ∀ (repo : Repository) (errlog : List RepositoryError)
      (rs : List InputRecord),
      (∀ r ∈ rs, (Transaction.tryFrom r).isOk = true) →
      (processRecords repo errlog rs).isOk = true := by
    intro repo errlog rs
    induction rs generalizing repo errlog with
    | nil =>
      intro _
      simp [processRecords, Except.isOk, Except.toBool]
    | cons r rest ih =>
      intro hall
      have hr := hall r (List.mem_cons_self _ _)
      have hrest := fun r' hr' => hall r' (List.mem_cons_of_mem r hr')
      rcases hx : Transaction.tryFrom r with e | t
      · rw [hx] at hr
        simp [Except.isOk, Except.toBool] at hr
      · rcases hp : repo.register_transaction t with ⟨repo', oe⟩
        cases oe with
        | none =>
          simpa [processRecords, hx, hp] using ih repo' errlog hrest
        | some e =>
          simpa [processRecords, hx, hp] using ih repo' (errlog ++ [e]) hrest
  refine ⟨hmain, ?_, ?_⟩
  · intro repo errlog r rest t repo2 e h1 h2
    simp [processRecords, h1, h2]
  · intro rs hall
    have hok := hmain Repository.new [] rs hall
    rcases hp : processRecords Repository.new [] rs with e | p
    · rw [hp] at hok
      simp [Except.isOk, Except.toBool] at hok
    · obtain ⟨repo1, log1⟩ := p
      simp [runMain, hp, Except.isOk, Except.toBool]

/-- Witness for C1 (amended): a stream of one undecodable-free record
whose ledger application fails (withdrawal with no funds) still ends
with exit code zero; and the explicit skip-and-continue step. -/
theorem c1_witness :
    (processRecords Repository.new []
      [⟨"withdrawal", 1, 1, some 1⟩]).isOk = true ∧
    (runMain [⟨"withdrawal", 1, 1, some 1⟩]).isOk = true ∧
    processRecords Repository.new []
        [⟨"withdrawal", 1, 1, some 1⟩, ⟨"deposit", 1, 2, some 1⟩] =
      processRecords
        ⟨alInsert Repository.new.clients 1 (Client.new 1)⟩
        [RepositoryError.InsufficientFunds 1]
        [⟨"deposit", 1, 2, some 1⟩] := by
  have hdec : ∀ r ∈ ([⟨"withdrawal", 1, 1, some 1⟩] : List InputRecord),
      (Transaction.tryFrom r).isOk = true := by
    intro r hr
    simp only [List.mem_cons, List.not_mem_nil, or_false] at hr
    subst hr
    rfl
  have hreg : Repository.new.register_transaction
      (Transaction.Withdrawal ⟨1, 1, 1⟩) =
      (⟨alInsert Repository.new.clients 1 (Client.new 1)⟩,
        some (RepositoryError.InsufficientFunds 1)) := by
    have hlt : ((0 : ℚ) < 1) := by norm_num
    simp [Repository.register_transaction, Client.register_transaction,
      Repository.new, Client.new, Transaction.clientOf, alLookup,
      alContains, hlt]
  exact ⟨c1_amended.1 Repository.new [] _ hdec,
    c1_amended.2.2 _ hdec,
    c1_amended.2.1 Repository.new [] ⟨"withdrawal", 1, 1, some 1⟩
      [⟨"deposit", 1, 2, some 1⟩] (Transaction.Withdrawal ⟨1, 1, 1⟩)
      ⟨alInsert Repository.new.clients 1 (Client.new 1)⟩
      (RepositoryError.InsufficientFunds 1) rfl hreg⟩

lemma formatFixed4_zero : formatFixed4 0 = "0.0000" := by
  have h : round ((0 : ℚ) * 10000) = (0 : ℤ) := by norm_num
  simp only [formatFixed4, h]
  norm_num
  decide

/-- C8: routing a transaction for an unseen client id creates and
retains an empty ledger before delegating — on a ledger error the
stored client is exactly `Client::new` — and the snapshot row rendered
for such an empty ledger is `0.0000,0.0000,0.0000,false`. -/
theorem c8_fresh_client_retained (r : Repository) (t : Transaction)
    (hfresh : alLookup r.clients (Transaction.clientOf t) = none) :
    (∀ e, (r.register_transaction t).2 = some e →
      alLookup (r.register_transaction t).1.clients
          (Transaction.clientOf t) =
        some (Client.new (Transaction.clientOf t))) ∧
    ((r.register_transaction t).2 = none →
      alLookup (r.register_transaction t).1.clients
          (Transaction.clientOf t) =
        some ((Client.new (Transaction.clientOf t)).register_transaction
          t).1) ∧
    OutputRecord.fromClient (Client.new (Transaction.clientOf t)) =
      { client := Transaction.clientOf t
        available := "0.0000"
        held := "0.0000"
        total := "0.0000"
        locked := false } := by
  have hrepo : (r.register_transaction t).1.clients =
      alInsert r.clients (Transaction.clientOf t)
        ((Client.new (Transaction.clientOf t)).register_transaction t).1 := by
    simp [Repository.register_transaction, hfresh]
  have hsnd : (r.register_transaction t).2 =
      ((Client.new (Transaction.clientOf t)).register_transaction t).2 := by
    simp [Repository.register_transaction, hfresh]
  refine ⟨?_, ?_, ?_⟩
  · intro e he
    rw [hsnd] at he
    rcases register_error_unchanged (Client.new (Transaction.clientOf t)) t
        with hnone | hsame
    · rw [hnone] at he
      cases he
    · rw [hrepo, alLookup_alInsert, if_pos rfl, hsame]
  · intro _
    rw [hrepo, alLookup_alInsert, if_pos rfl]
  · have hz : (0 : ℚ) + 0 = 0 := by norm_num
    simp [OutputRecord.fromClient, Client.new, hz, formatFixed4_zero]

/-- Witness for C8: a withdrawal routed to the unseen client 7 is
rejected with `InsufficientFunds`, yet client 7 is retained as a fresh
empty ledger whose snapshot row shows `0.0000` balances, unlocked. -/
theorem c8_witness :
    alLookup (Repository.new.register_transaction
        (Transaction.Withdrawal ⟨7, 1, 1⟩)).1.clients 7 =
      some (Client.new 7) ∧
    OutputRecord.fromClient (Client.new 7) =
      { client := 7
        available := "0.0000"
        held := "0.0000"
        total := "0.0000"
        locked := false } := by
  have h := c8_fresh_client_retained Repository.new
    (Transaction.Withdrawal ⟨7, 1, 1⟩) rfl
  refine ⟨h.1 (RepositoryError.InsufficientFunds 7) ?_, h.2.2⟩
  have hlt : ((0 : ℚ) < 1) := by norm_num
  simp [Repository.register_transaction, Client.register_transaction,
    Repository.new, Client.new, Transaction.clientOf, alLookup,
    alContains, hlt]

/-- Witness for C9: the duplicate check consults only the receiving
client's ledger — a deposit reusing tx 5 on client 1, whose own ledger
already holds tx 5, is rejected as a duplicate. -/
theorem c9_witness :
    ((⟨[(1, { Client.new 1 with
        transactions := [(5, Transaction.Deposit ⟨1, 5, 1⟩)] })]⟩ :
          Repository).register_transaction
        (Transaction.Deposit ⟨1, 5, 2⟩)).2 =
      some (RepositoryError.DuplicateTransactionId 5) :=
  (c9_duplicate_scoped_per_client.2.2.2.2
    ⟨[(1, { Client.new 1 with
        transactions := [(5, Transaction.Deposit ⟨1, 5, 1⟩)] })]⟩
    ⟨1, 5, 2⟩).mpr ⟨rfl, rfl⟩
